import Mathlib

/-!
Verification of the library-inventory catalog manager
(`src/library_system/services/library_manager.py`).

Strings are modelled as lists of characters (`Str`); Python's
`str.lower` is modelled by mapping `Char.toLower`, and Python's
substring test `a in b` by `isSubstr`.  The three record classes
`Book`, `EBook`, `Audiobook` and the `Storage` collaborator are not
part of the given sources, so they are modelled from the spec; the
`LibraryManager` operations themselves are translated directly from
`library_manager.py`.
-/

/-- A Python string, modelled as its list of characters. -/
abbrev Str := List Char

/-- Python `str.lower()`: lower-case every character. -/
def toLowerStr (s : Str) : Str := s.map Char.toLower

/-- Python substring test `needle in hay` on strings. -/
def isSubstr : Str → Str → Bool
  | needle, [] => needle.isEmpty
  | needle, c :: t => needle.isPrefixOf (c :: t) || isSubstr needle t

/-- Modelled from the spec: the three record variants (`Book` the printed
variant, `EBook` the electronic variant, `Audiobook` the audio variant),
each an external plain data carrier with a fixed attribute list: the
common attributes `resource_id`, `title`, `author`, `isbn`, `page_count`,
plus `file_size_mb`/`file_format` for the electronic variant and
`duration_minutes`/`narrator` for the audio variant. -/
inductive LibraryResource where
  | book (resource_id title author isbn : Str) (page_count : Int)
  | ebook (resource_id title author isbn : Str) (page_count : Int)
      (file_size_mb : Rat) (file_format : Str)
  | audiobook (resource_id title author isbn : Str) (page_count : Int)
      (duration_minutes : Rat) (narrator : Str)
deriving DecidableEq, Repr

/-- The `resource_id` attribute, common to all three variants. -/
def LibraryResource.resource_id : LibraryResource → Str
  | .book i _ _ _ _ => i
  | .ebook i _ _ _ _ _ _ => i
  | .audiobook i _ _ _ _ _ _ => i

/-- The `title` attribute, common to all three variants. -/
def LibraryResource.title : LibraryResource → Str
  | .book _ t _ _ _ => t
  | .ebook _ t _ _ _ _ _ => t
  | .audiobook _ t _ _ _ _ _ => t

/-- The `author` attribute, common to all three variants. -/
def LibraryResource.author : LibraryResource → Str
  | .book _ _ a _ _ => a
  | .ebook _ _ a _ _ _ _ => a
  | .audiobook _ _ a _ _ _ _ => a

/-- Python `resource.__class__.__name__` for the three variants. -/
def LibraryResource.className : LibraryResource → Str
  | .book _ _ _ _ _ => "Book".data
  | .ebook _ _ _ _ _ _ _ => "EBook".data
  | .audiobook _ _ _ _ _ _ _ => "Audiobook".data

/-- A persisted record dictionary, the shape produced by
`_resource_to_dict`: the `"type"` tag (may be absent in arbitrary
persisted data), the five common attributes, and the variant-specific
attributes, each present or absent. -/
structure ResourceDict where
  type : Option Str
  resource_id : Str
  title : Str
  author : Str
  isbn : Str
  page_count : Int
  file_size_mb : Option Rat
  file_format : Option Str
  duration_minutes : Option Rat
  narrator : Option Str
deriving DecidableEq, Repr

/-- Errors raised while deserializing a persisted record dictionary:
`keyErrorType` models the `KeyError` from `data.pop("type")` when the
tag is absent; `unrecognizedType` models the
`ValueError("Unknown resource type: ...")`; `typeErrorBadAttrs` models
the `TypeError` Python raises when the remaining keys do not match the
constructed variant's parameter list. -/
inductive LoadError where
  | keyErrorType
  | unrecognizedType (tag : Str)
  | typeErrorBadAttrs
deriving DecidableEq, Repr

/-- Errors raised by the mutating catalog operations:
`duplicateIdentifier` models the `ValueError` from `add_resource`,
`storageWriteFailure` models a failure of `Storage.save_data`. -/
inductive LibError where
  | duplicateIdentifier (id : Str)
  | storageWriteFailure
deriving DecidableEq, Repr

/-- `LibraryManager._resource_to_dict`: tag with the class name, copy
the common attributes, and add the variant-specific attributes only for
the `EBook` and `Audiobook` variants. -/
def resource_to_dict : LibraryResource → ResourceDict
  | .book i t a n p =>
      { type := some "Book".data, resource_id := i, title := t, author := a,
        isbn := n, page_count := p, file_size_mb := none, file_format := none,
        duration_minutes := none, narrator := none }
  | .ebook i t a n p sz fmt =>
      { type := some "EBook".data, resource_id := i, title := t, author := a,
        isbn := n, page_count := p, file_size_mb := some sz,
        file_format := some fmt, duration_minutes := none, narrator := none }
  | .audiobook i t a n p d nar =>
      { type := some "Audiobook".data, resource_id := i, title := t,
        author := a, isbn := n, page_count := p, file_size_mb := none,
        file_format := none, duration_minutes := some d, narrator := some nar }

/-- `LibraryManager._dict_to_resource`: pop the `"type"` tag (a missing
tag is a `KeyError`), dispatch on it, and construct the matching variant
from the remaining keys (keys not in the variant's parameter list, or a
missing variant-specific key, are a `TypeError`); an unknown tag raises
`ValueError("Unknown resource type: ...")`. -/
def dict_to_resource (d : ResourceDict) : Except LoadError LibraryResource :=
  match d.type with
  | none => .error .keyErrorType
  | some tag =>
    if tag = "EBook".data then
      match d.file_size_mb, d.file_format, d.duration_minutes, d.narrator with
      | some sz, some fmt, none, none =>
          .ok (.ebook d.resource_id d.title d.author d.isbn d.page_count sz fmt)
      | _, _, _, _ => .error .typeErrorBadAttrs
    else if tag = "Audiobook".data then
      match d.file_size_mb, d.file_format, d.duration_minutes, d.narrator with
      | none, none, some dur, some nar =>
          .ok (.audiobook d.resource_id d.title d.author d.isbn d.page_count dur nar)
      | _, _, _, _ => .error .typeErrorBadAttrs
    else if tag = "Book".data then
      match d.file_size_mb, d.file_format, d.duration_minutes, d.narrator with
      | none, none, none, none =>
          .ok (.book d.resource_id d.title d.author d.isbn d.page_count)
      | _, _, _, _ => .error .typeErrorBadAttrs
    else .error (.unrecognizedType tag)

/-- The manager state: the in-memory collection `resources` together
with the current contents of the storage file `stored` (the structured
data held by the `Storage` collaborator, modelled from the spec as a
sequence of record dictionaries). -/
structure LibraryManager where
  resources : List LibraryResource
  stored : List ResourceDict
deriving DecidableEq, Repr

/-- `LibraryManager._save_resources`: serialize every resource and
rewrite the whole storage file.  `saveFails` models the storage
collaborator failing the write (spec: `StorageWriteFailure`), in which
case the file keeps its previous contents and the error propagates. -/
def save_resources (saveFails : Bool) (m : LibraryManager) :
    LibraryManager × Except LibError Unit :=
  if saveFails then (m, .error .storageWriteFailure)
  else ({ m with stored := m.resources.map resource_to_dict }, .ok ())

/-- `LibraryManager.add_resource`: raise `ValueError` if any existing
resource bears the same id, otherwise append and persist. -/
def add_resource (saveFails : Bool) (m : LibraryManager)
    (r : LibraryResource) : LibraryManager × Except LibError Unit :=
  if m.resources.any (fun x => x.resource_id = r.resource_id) then
    (m, .error (.duplicateIdentifier r.resource_id))
  else
    save_resources saveFails { m with resources := m.resources ++ [r] }

/-- `LibraryManager.get_resource`: first resource bearing the id, if any. -/
def get_resource (m : LibraryManager) (id : Str) : Option LibraryResource :=
  m.resources.find? (fun r => r.resource_id = id)

/-- Python `list.remove`: drop the first element equal to `r`. -/
def listRemove (r : LibraryResource) : List LibraryResource → List LibraryResource
  | [] => []
  | x :: xs => if x = r then xs else x :: listRemove r xs

/-- `LibraryManager.remove_resource`: look the id up; when found, remove
that resource from the list and persist; when not found, do nothing. -/
def remove_resource (saveFails : Bool) (m : LibraryManager) (id : Str) :
    LibraryManager × Except LibError Unit :=
  match get_resource m id with
  | none => (m, .ok ())
  | some r => save_resources saveFails { m with resources := listRemove r m.resources }

/-- `LibraryManager.search_resources`: lower-case the query, keep the
resources whose lower-cased title or author contains it. -/
def search_resources (m : LibraryManager) (query : Str) : List LibraryResource :=
  let q := toLowerStr query
  m.resources.filter
    (fun r => isSubstr q (toLowerStr r.title) || isSubstr q (toLowerStr r.author))

/-- `LibraryManager.get_all_resources`: the in-memory collection. -/
def get_all_resources (m : LibraryManager) : List LibraryResource :=
  m.resources

/-- `LibraryManager._load_resources`: deserialize every stored record
dictionary; the first failure aborts the load. -/
def load_resources (stored : List ResourceDict) :
    Except LoadError (List LibraryResource) :=
  stored.mapM dict_to_resource

/-- `LibraryManager.__init__` with given storage contents: load the
stored records into memory. -/
def mkLibraryManager (stored : List ResourceDict) :
    Except LoadError LibraryManager :=
  (load_resources stored).map (fun rs => { resources := rs, stored := stored })

/-- The uniqueness invariant: no two records share the same identifier. -/
def uniqueIds (rs : List LibraryResource) : Prop :=
  (rs.map LibraryResource.resource_id).Nodup

instance (rs : List LibraryResource) : Decidable (uniqueIds rs) :=
  inferInstanceAs (Decidable (rs.map LibraryResource.resource_id).Nodup)

/-- A catalog constructed over an empty storage file. -/
def emptyManager : LibraryManager := { resources := [], stored := [] }

/-- Saving never touches the in-memory collection. -/
theorem save_resources_fst_resources (saveFails : Bool) (m : LibraryManager) :
    (save_resources saveFails m).1.resources = m.resources := by
  unfold save_resources
  split <;> rfl

/-- `listRemove` yields a sublist of its input. -/
theorem listRemove_sublist (r : LibraryResource) (l : List LibraryResource) :
    List.Sublist (listRemove r l) l := by
  induction l with
  | nil => exact List.Sublist.refl _
  | cons x xs ih =>
    unfold listRemove
    split
    · exact List.sublist_cons_self x xs
    · exact List.Sublist.cons₂ x ih

/-- C1: starting from any state in which no two records share the same
identifier, `add_resource` and `remove_resource` both yield a state in
which no two records share the same identifier, whether or not the
storage write succeeds. -/
theorem uniqueIds_invariant_add_remove (saveFails : Bool) (m : LibraryManager)
    (r : LibraryResource) (id : Str) (h : uniqueIds m.resources) :
    uniqueIds (add_resource saveFails m r).1.resources ∧
    uniqueIds (remove_resource saveFails m id).1.resources := by
  constructor
  · unfold add_resource
    split
    · exact h
    · rename_i hany
      rw [save_resources_fst_resources]
      show uniqueIds (m.resources ++ [r])
      unfold uniqueIds at h ⊢
      rw [List.map_append, List.nodup_append]
      refine ⟨h, List.nodup_singleton _, ?_⟩
      intro a ha hb
      simp only [List.map_cons, List.map_nil, List.mem_singleton] at hb
      subst hb
      simp only [List.any_eq_true, decide_eq_true_eq, not_exists, not_and] at hany
      obtain ⟨x, hx, hxa⟩ := List.mem_map.mp ha
      exact hany x hx hxa
  · unfold remove_resource
    cases hfind : get_resource m id with
    | none => exact h
    | some r0 =>
      rw [save_resources_fst_resources]
      show uniqueIds (listRemove r0 m.resources)
      exact List.Nodup.sublist (List.Sublist.map _ (listRemove_sublist r0 m.resources)) h

/-- Witness for C1 at a concrete one-record catalog. -/
theorem uniqueIds_invariant_add_remove_witness :
    uniqueIds ([LibraryResource.book "b1".data "Dune".data "F".data "9".data 412]) ∧
    (uniqueIds (add_resource false
        ⟨[LibraryResource.book "b1".data "Dune".data "F".data "9".data 412], []⟩
        (LibraryResource.book "b2".data "T".data "A".data "8".data 1)).1.resources ∧
      uniqueIds (remove_resource false
        ⟨[LibraryResource.book "b1".data "Dune".data "F".data "9".data 412], []⟩
        "b1".data).1.resources) :=
  ⟨by decide,
    uniqueIds_invariant_add_remove false
      ⟨[LibraryResource.book "b1".data "Dune".data "F".data "9".data 412], []⟩
      (LibraryResource.book "b2".data "T".data "A".data "8".data 1)
      "b1".data (by decide)⟩

/-- Sample printed record, used by concrete witnesses. -/
def sampleBook : LibraryResource :=
  .book "b1".data "Dune".data "Frank Herbert".data "978-0441013593".data 412

/-- Sample electronic record, used by concrete witnesses. -/
def sampleEBook : LibraryResource :=
  .ebook "e1".data "Dune".data "Frank Herbert".data "978-0441013593".data 412
    (3 : Rat) "EPUB".data

/-- Sample audio record, used by concrete witnesses. -/
def sampleAudio : LibraryResource :=
  .audiobook "a1".data "Hobbit".data "J.R.R. Tolkien".data "978-(hb)".data 0
    (663 : Rat) "Andy Serkis".data

/-- Sample electronic record sharing `sampleBook`'s identifier. -/
def sampleClash : LibraryResource :=
  .ebook "b1".data "Duplicate".data "Nobody".data "0".data 5 (2 : Rat) "PDF".data

/-- C2: when `r1`'s identifier is fresh and `r2` bears the same
identifier, `add_resource r1` succeeds and the following
`add_resource r2` raises the duplicate-identifier error, changes
nothing (in-memory collection and storage alike), and leaves `r1` as
the only one of the two records in the collection. -/
theorem add_duplicate_identifier (m : LibraryManager) (r1 r2 : LibraryResource)
    (heq : r2.resource_id = r1.resource_id)
    (hfresh : (m.resources.any fun x => x.resource_id = r1.resource_id) = false) :
    (add_resource false m r1).2 = .ok () ∧
    (add_resource false (add_resource false m r1).1 r2).2
      = .error (.duplicateIdentifier r2.resource_id) ∧
    (add_resource false (add_resource false m r1).1 r2).1
      = (add_resource false m r1).1 ∧
    (add_resource false m r1).1.resources = m.resources ++ [r1] ∧
    (r2 ∈ (add_resource false (add_resource false m r1).1 r2).1.resources ↔ r2 = r1) := by
  have h1 : add_resource false m r1 =
      ({ resources := m.resources ++ [r1],
         stored := (m.resources ++ [r1]).map resource_to_dict }, .ok ()) := by
    unfold add_resource
    rw [if_neg (by simp [hfresh])]
    rfl
  have hcond : ((m.resources ++ [r1]).any fun x => x.resource_id = r2.resource_id)
      = true := by
    simp [List.any_append, heq]
  have h2 : add_resource false
      ({ resources := m.resources ++ [r1],
         stored := (m.resources ++ [r1]).map resource_to_dict } : LibraryManager) r2 =
      ({ resources := m.resources ++ [r1],
         stored := (m.resources ++ [r1]).map resource_to_dict },
        .error (.duplicateIdentifier r2.resource_id)) := by
    unfold add_resource
    rw [if_pos (by simpa using hcond)]
  simp only [List.any_eq_false, decide_eq_true_eq] at hfresh
  rw [h1, h2]
  refine ⟨rfl, rfl, rfl, rfl, ?_⟩
  constructor
  · intro hmem
    rcases List.mem_append.mp hmem with hin | hone
    · exact absurd heq (hfresh r2 hin)
    · simpa using hone
  · intro hr
    subst hr
    exact List.mem_append.mpr (Or.inr (by simp))

/-- Witness for C2: adding `sampleClash` after `sampleBook` on the
empty catalog fails and leaves only `sampleBook`. -/
theorem add_duplicate_identifier_witness :
    sampleClash.resource_id = sampleBook.resource_id ∧
    (emptyManager.resources.any
      fun x => x.resource_id = sampleBook.resource_id) = false ∧
    ((add_resource false emptyManager sampleBook).2 = .ok () ∧
      (add_resource false (add_resource false emptyManager sampleBook).1
          sampleClash).2
        = .error (.duplicateIdentifier sampleClash.resource_id) ∧
      (add_resource false (add_resource false emptyManager sampleBook).1
          sampleClash).1
        = (add_resource false emptyManager sampleBook).1 ∧
      (add_resource false emptyManager sampleBook).1.resources
        = emptyManager.resources ++ [sampleBook] ∧
      (sampleClash ∈ (add_resource false
          (add_resource false emptyManager sampleBook).1 sampleClash).1.resources
        ↔ sampleClash = sampleBook)) :=
  ⟨by decide, by decide,
    add_duplicate_identifier emptyManager sampleBook sampleClash
      (by decide) (by decide)⟩

/-- `List.isPrefixOf` on characters agrees with an append decomposition. -/
theorem isPrefixOf_eq_true_iff (n h : Str) :
    n.isPrefixOf h = true ↔ ∃ t, h = n ++ t := by
  induction n generalizing h with
  | nil => simp [List.isPrefixOf]
  | cons a as ih =>
    cases h with
    | nil => simp [List.isPrefixOf]
    | cons b bs =>
      simp only [List.isPrefixOf, Bool.and_eq_true, beq_iff_eq, ih, List.cons_append]
      constructor
      · rintro ⟨rfl, t, rfl⟩
        exact ⟨t, rfl⟩
      · rintro ⟨t, ht⟩
        injection ht with h1 h2
        exact ⟨h1.symm, t, h2⟩

/-- `isSubstr` agrees with the mathematical substring decomposition. -/
theorem isSubstr_eq_true_iff (n h : Str) :
    isSubstr n h = true ↔ ∃ p s, h = p ++ n ++ s := by
  induction h with
  | nil =>
    simp only [isSubstr, List.isEmpty_iff]
    constructor
    · rintro rfl
      exact ⟨[], [], rfl⟩
    · rintro ⟨p, s, hp⟩
      rcases List.append_eq_nil.mp (List.append_eq_nil.mp hp.symm).1 with ⟨-, h2⟩
      exact h2
  | cons c t ih =>
    simp only [isSubstr, Bool.or_eq_true, isPrefixOf_eq_true_iff, ih]
    constructor
    · rintro (⟨s, hs⟩ | ⟨p, s, hp⟩)
      · exact ⟨[], s, by simpa using hs⟩
      · exact ⟨c :: p, s, by simp [hp]⟩
    · rintro ⟨p, s, hp⟩
      cases p with
      | nil =>
        left
        exact ⟨s, by simpa using hp⟩
      | cons x xs =>
        right
        injection hp with h1 h2
        exact ⟨xs, s, h2⟩

/-- The empty string is a substring of every string. -/
theorem isSubstr_nil (h : Str) : isSubstr [] h = true := by
  cases h <;> rfl

/-- The spec's matching condition: the record's title or author contains
the query as a substring, compared case-insensitively. -/
def matchesQueryCI (query : Str) (r : LibraryResource) : Prop :=
  (∃ p s, toLowerStr r.title = p ++ toLowerStr query ++ s) ∨
  (∃ p s, toLowerStr r.author = p ++ toLowerStr query ++ s)

instance (query : Str) (r : LibraryResource) : Decidable (matchesQueryCI query r) :=
  decidable_of_iff
    ((isSubstr (toLowerStr query) (toLowerStr r.title)
      || isSubstr (toLowerStr query) (toLowerStr r.author)) = true)
    (by
      simp only [Bool.or_eq_true, isSubstr_eq_true_iff]
      exact Iff.rfl)

/-- C3: `search_resources` returns exactly the ordered subsequence of
the collection whose title or author contains the query case-insensitively
(stated as a filter by the spec's condition, and as a sublist);
the empty query returns the whole collection in order; and two queries
with the same lower-casing return identical results. -/
theorem search_resources_spec (m : LibraryManager) (q q1 q2 : Str)
    (hcase : toLowerStr q1 = toLowerStr q2) :
    search_resources m q
      = m.resources.filter (fun r => decide (matchesQueryCI q r)) ∧
    List.Sublist (search_resources m q) m.resources ∧
    search_resources m [] = m.resources ∧
    search_resources m q1 = search_resources m q2 := by
  refine ⟨?_, ?_, ?_, ?_⟩
  · unfold search_resources
    apply List.filter_congr
    intro r hr
    rw [Bool.eq_iff_iff]
    simp only [Bool.or_eq_true, decide_eq_true_eq, isSubstr_eq_true_iff]
    exact Iff.rfl
  · exact List.filter_sublist _
  · unfold search_resources
    rw [List.filter_eq_self.mpr]
    intro r hr
    simp [toLowerStr, isSubstr_nil]
  · unfold search_resources
    rw [hcase]

/-- Witness for C3 on a two-record catalog, with queries `tolkien` and
`TOLKIEN`. -/
theorem search_resources_spec_witness :
    toLowerStr "tolkien".data = toLowerStr "TOLKIEN".data ∧
    (search_resources ⟨[sampleBook, sampleAudio], []⟩ "dune".data
      = [sampleBook, sampleAudio].filter
          (fun r => decide (matchesQueryCI "dune".data r)) ∧
    List.Sublist (search_resources ⟨[sampleBook, sampleAudio], []⟩ "dune".data)
      [sampleBook, sampleAudio] ∧
    search_resources ⟨[sampleBook, sampleAudio], []⟩ []
      = [sampleBook, sampleAudio] ∧
    search_resources ⟨[sampleBook, sampleAudio], []⟩ "tolkien".data
      = search_resources ⟨[sampleBook, sampleAudio], []⟩ "TOLKIEN".data) :=
  ⟨by decide,
    search_resources_spec ⟨[sampleBook, sampleAudio], []⟩ "dune".data
      "tolkien".data "TOLKIEN".data (by decide)⟩

/-- Deserializing the serialization of any record gives the record back. -/
theorem dict_to_resource_resource_to_dict (r : LibraryResource) :
    dict_to_resource (resource_to_dict r) = .ok r := by
  cases r <;> rfl

/-- Loading the serialization of any record sequence gives it back. -/
theorem load_resources_map_resource_to_dict (rs : List LibraryResource) :
    load_resources (rs.map resource_to_dict) = .ok rs := by
  induction rs with
  | nil => rfl
  | cons r rs ih =>
    unfold load_resources at ih ⊢
    rw [List.map_cons, List.mapM_cons, dict_to_resource_resource_to_dict]
    simp only [ih]
    rfl

/-- C4: serialization round-trips on every record and on every mix of
records (save then load returns the originals), the serialized
dictionary is tagged with the record's variant name, and it carries the
variant-specific attributes exactly for that variant. -/
theorem serialization_round_trip (r : LibraryResource) (rs : List LibraryResource) :
    dict_to_resource (resource_to_dict r) = .ok r ∧
    load_resources (rs.map resource_to_dict) = .ok rs ∧
    (resource_to_dict r).type = some r.className ∧
    ((resource_to_dict r).file_size_mb.isSome = true
      ↔ r.className = "EBook".data) ∧
    ((resource_to_dict r).file_format.isSome = true
      ↔ r.className = "EBook".data) ∧
    ((resource_to_dict r).duration_minutes.isSome = true
      ↔ r.className = "Audiobook".data) ∧
    ((resource_to_dict r).narrator.isSome = true
      ↔ r.className = "Audiobook".data) := by
  refine ⟨dict_to_resource_resource_to_dict r,
    load_resources_map_resource_to_dict rs, ?_, ?_, ?_, ?_, ?_⟩ <;>
    cases r <;> simp [resource_to_dict, LibraryResource.className]

/-- A persisted dictionary with no `"type"` tag. -/
def untaggedDict : ResourceDict :=
  { type := none, resource_id := "x1".data, title := "T".data,
    author := "A".data, isbn := "1".data, page_count := 1,
    file_size_mb := none, file_format := none,
    duration_minutes := none, narrator := none }

/-- A persisted dictionary tagged with an unknown variant name. -/
def unknownTagDict : ResourceDict :=
  { untaggedDict with type := some "CDROM".data }

/-- Does a deserialization result report the unrecognized-type error
(the `ValueError("Unknown resource type: ...")`)? -/
def isUnrecognizedTypeError : Except LoadError LibraryResource → Bool
  | .error (.unrecognizedType _) => true
  | _ => false

/-- C5 counterexample: on a dictionary whose `"type"` tag is absent,
deserialization fails with the missing-key error of `data.pop("type")`,
not with the unrecognized-type error the claim names. -/
theorem dict_missing_tag_not_unrecognized :
    dict_to_resource untaggedDict = .error .keyErrorType ∧
    isUnrecognizedTypeError (dict_to_resource untaggedDict) = false :=
  ⟨rfl, rfl⟩

/-- C5 (amended): a present but unrecognized `"type"` tag fails with
the unrecognized-type error; an absent tag fails with the missing-key
error instead; a recognized tag with exactly that variant's attributes
succeeds with the corresponding variant. -/
theorem dict_to_resource_tag_dispatch (d : ResourceDict) :
    (d.type = none → dict_to_resource d = .error .keyErrorType) ∧
    (∀ tag, d.type = some tag →
      tag ≠ "Book".data → tag ≠ "EBook".data → tag ≠ "Audiobook".data →
      dict_to_resource d = .error (.unrecognizedType tag)) ∧
    (d.type = some "Book".data → d.file_size_mb = none → d.file_format = none →
      d.duration_minutes = none → d.narrator = none →
      dict_to_resource d
        = .ok (.book d.resource_id d.title d.author d.isbn d.page_count)) ∧
    (∀ sz fmt, d.type = some "EBook".data → d.file_size_mb = some sz →
      d.file_format = some fmt → d.duration_minutes = none → d.narrator = none →
      dict_to_resource d
        = .ok (.ebook d.resource_id d.title d.author d.isbn d.page_count sz fmt)) ∧
    (∀ dur nar, d.type = some "Audiobook".data → d.file_size_mb = none →
      d.file_format = none → d.duration_minutes = some dur → d.narrator = some nar →
      dict_to_resource d
        = .ok (.audiobook d.resource_id d.title d.author d.isbn d.page_count dur nar)) := by
  refine ⟨?_, ?_, ?_, ?_, ?_⟩
  · intro h
    simp [dict_to_resource, h]
  · intro tag h h1 h2 h3
    simp [dict_to_resource, h, h1, h2, h3]
  · intro h h1 h2 h3 h4
    simp [dict_to_resource, h, h1, h2, h3, h4]
  · intro sz fmt h h1 h2 h3 h4
    simp [dict_to_resource, h, h1, h2, h3, h4]
  · intro dur nar h h1 h2 h3 h4
    simp [dict_to_resource, h, h1, h2, h3, h4]

/-- Witness for the amended C5 at three concrete dictionaries: absent
tag, unknown tag `CDROM`, and a well-formed `Book` dictionary. -/
theorem dict_to_resource_tag_dispatch_witness :
    dict_to_resource untaggedDict = .error .keyErrorType ∧
    dict_to_resource unknownTagDict
      = .error (.unrecognizedType "CDROM".data) ∧
    dict_to_resource (resource_to_dict sampleBook)
      = .ok (.book (resource_to_dict sampleBook).resource_id
          (resource_to_dict sampleBook).title
          (resource_to_dict sampleBook).author
          (resource_to_dict sampleBook).isbn
          (resource_to_dict sampleBook).page_count) :=
  ⟨(dict_to_resource_tag_dispatch untaggedDict).1 rfl,
    (dict_to_resource_tag_dispatch unknownTagDict).2.1 "CDROM".data rfl
      (by decide) (by decide) (by decide),
    (dict_to_resource_tag_dispatch (resource_to_dict sampleBook)).2.2.1
      rfl rfl rfl rfl rfl⟩

/-- C6: when the storage write fails, a non-duplicate `add_resource` and
a present-id `remove_resource` both propagate the write failure, and at
that point the in-memory collection has already been mutated while the
stored contents are untouched (mutate-then-write ordering, no retry). -/
theorem storage_failure_mutate_then_write (m : LibraryManager)
    (r r0 : LibraryResource) (id : Str)
    (hfresh : (m.resources.any fun x => x.resource_id = r.resource_id) = false)
    (hfind : get_resource m id = some r0) :
    add_resource true m r
      = ({ m with resources := m.resources ++ [r] }, .error .storageWriteFailure) ∧
    remove_resource true m id
      = ({ m with resources := listRemove r0 m.resources },
          .error .storageWriteFailure) := by
  constructor
  · unfold add_resource
    rw [if_neg (by simp [hfresh])]
    rfl
  · unfold remove_resource
    rw [hfind]
    rfl

/-- Witness for C6 on a one-record catalog: a failing write during
`add_resource sampleEBook` and during `remove_resource "b1"`. -/
theorem storage_failure_mutate_then_write_witness :
    ((⟨[sampleBook], []⟩ : LibraryManager).resources.any
      fun x => x.resource_id = sampleEBook.resource_id) = false ∧
    get_resource ⟨[sampleBook], []⟩ "b1".data = some sampleBook ∧
    (add_resource true ⟨[sampleBook], []⟩ sampleEBook
      = (⟨[sampleBook, sampleEBook], []⟩, .error .storageWriteFailure) ∧
    remove_resource true ⟨[sampleBook], []⟩ "b1".data
      = (⟨listRemove sampleBook [sampleBook], []⟩, .error .storageWriteFailure)) :=
  ⟨by decide, rfl,
    storage_failure_mutate_then_write ⟨[sampleBook], []⟩ sampleEBook sampleBook
      "b1".data (by decide) rfl⟩

/-- C9: removing an identifier borne by no record is a no-op: no error,
and the state (collection and stored contents) is returned unchanged. -/
theorem remove_absent_noop (saveFails : Bool) (m : LibraryManager) (id : Str)
    (h : get_resource m id = none) :
    remove_resource saveFails m id = (m, .ok ()) := by
  unfold remove_resource
  rw [h]

/-- Witness for C9: removing the absent id `zz` from a one-record
catalog changes nothing. -/
theorem remove_absent_noop_witness :
    get_resource ⟨[sampleBook], []⟩ "zz".data = none ∧
    remove_resource false ⟨[sampleBook], []⟩ "zz".data
      = (⟨[sampleBook], []⟩, .ok ()) :=
  ⟨rfl, remove_absent_noop false ⟨[sampleBook], []⟩ "zz".data rfl⟩

/-- A sequence of `add_resource` calls (storage writes succeeding),
returning the final state and the per-call results in order. -/
def addAll (m : LibraryManager) :
    List LibraryResource → LibraryManager × List (Except LibError Unit)
  | [] => (m, [])
  | r :: rs =>
    let step := add_resource false m r
    let rest := addAll step.1 rs
    (rest.1, step.2 :: rest.2)

/-- Repeated adds of records whose identifiers are fresh for the current
state and pairwise distinct: every call succeeds and the records are
appended in order. -/
theorem addAll_fresh (rs : List LibraryResource) :
    ∀ m : LibraryManager,
    (∀ r ∈ rs, (m.resources.any fun x => x.resource_id = r.resource_id) = false) →
    (rs.map LibraryResource.resource_id).Nodup →
    (addAll m rs).1.resources = m.resources ++ rs ∧
    (addAll m rs).2 = rs.map (fun _ => Except.ok ()) := by
  induction rs with
  | nil =>
    intro m h hn
    exact ⟨(List.append_nil _).symm, rfl⟩
  | cons r rs ih =>
    intro m h hn
    have hr := h r (List.mem_cons_self r rs)
    have hstep : add_resource false m r =
        ({ resources := m.resources ++ [r],
           stored := (m.resources ++ [r]).map resource_to_dict }, .ok ()) := by
      unfold add_resource
      rw [if_neg (by simp [hr])]
      rfl
    rw [List.map_cons] at hn
    have hnodup := List.nodup_cons.mp hn
    have hfresh' : ∀ r' ∈ rs,
        (((m.resources ++ [r]) : List LibraryResource).any
          fun x => x.resource_id = r'.resource_id) = false := by
      intro r' hr'
      have h1 := h r' (List.mem_cons_of_mem r hr')
      have hne : ¬ r.resource_id = r'.resource_id := by
        intro hcontra
        exact hnodup.1 (hcontra ▸ List.mem_map_of_mem LibraryResource.resource_id hr')
      simp [List.any_append, h1, hne]
    obtain ⟨ha, hb⟩ := ih
      { resources := m.resources ++ [r],
        stored := (m.resources ++ [r]).map resource_to_dict }
      hfresh' hnodup.2
    unfold addAll
    simp only [hstep]
    refine ⟨?_, ?_⟩
    · simpa [List.append_assoc] using ha
    · simpa using hb

/-- C7: starting from the empty catalog, any sequence of adds with
pairwise-distinct identifiers all succeed, and `get_all_resources`
afterwards returns exactly the added records, in insertion order, with
length the number of adds. -/
theorem addAll_distinct_from_empty (rs : List LibraryResource)
    (h : (rs.map LibraryResource.resource_id).Nodup) :
    (addAll emptyManager rs).2 = rs.map (fun _ => Except.ok ()) ∧
    get_all_resources (addAll emptyManager rs).1 = rs ∧
    (get_all_resources (addAll emptyManager rs).1).length = rs.length := by
  obtain ⟨ha, hb⟩ := addAll_fresh rs emptyManager (fun r _ => rfl) h
  have h2 : get_all_resources (addAll emptyManager rs).1 = rs := by
    simpa [get_all_resources, emptyManager] using ha
  exact ⟨hb, h2, by rw [h2]⟩

/-- Witness for C7: adding the three sample records (distinct ids) to
the empty catalog. -/
theorem addAll_distinct_from_empty_witness :
    ([sampleBook, sampleEBook, sampleAudio].map LibraryResource.resource_id).Nodup ∧
    ((addAll emptyManager [sampleBook, sampleEBook, sampleAudio]).2
      = [sampleBook, sampleEBook, sampleAudio].map (fun _ => Except.ok ()) ∧
    get_all_resources (addAll emptyManager [sampleBook, sampleEBook, sampleAudio]).1
      = [sampleBook, sampleEBook, sampleAudio] ∧
    (get_all_resources
        (addAll emptyManager [sampleBook, sampleEBook, sampleAudio]).1).length
      = ([sampleBook, sampleEBook, sampleAudio] : List LibraryResource).length) :=
  ⟨by decide,
    addAll_distinct_from_empty [sampleBook, sampleEBook, sampleAudio] (by decide)⟩

/-- A successful `find?` on the identifier splits the list at the first
record bearing the id: everything before it bears a different id. -/
theorem find_id_decomp (id : Str) (r : LibraryResource) :
    ∀ l : List LibraryResource,
    l.find? (fun x => x.resource_id = id) = some r →
    r.resource_id = id ∧
    ∃ pre post, l = pre ++ r :: post ∧ ∀ x ∈ pre, x.resource_id ≠ id := by
  intro l
  induction l with
  | nil => intro h; simp [List.find?] at h
  | cons a l ih =>
    intro h
    by_cases hpa : a.resource_id = id
    · have ha : a = r := by
        have : some a = some r := by simpa [List.find?_cons, hpa] using h
        exact Option.some.inj this
      subst ha
      exact ⟨hpa, [], l, rfl, by simp⟩
    · have h' : l.find? (fun x => x.resource_id = id) = some r := by
        simpa [List.find?_cons, hpa] using h
      obtain ⟨hid, pre, post, hsplit, hpre⟩ := ih h'
      refine ⟨hid, a :: pre, post, by rw [hsplit]; rfl, ?_⟩
      intro x hx
      rcases List.mem_cons.mp hx with rfl | hx'
      · exact hpa
      · exact hpre x hx'

/-- Removing the first occurrence of `r` when nothing before it equals
`r` drops exactly that occurrence. -/
theorem listRemove_append_not_mem (r : LibraryResource) (post : List LibraryResource) :
    ∀ pre : List LibraryResource, (∀ x ∈ pre, x ≠ r) →
    listRemove r (pre ++ r :: post) = pre ++ post := by
  intro pre
  induction pre with
  | nil => intro h; simp [listRemove]
  | cons a t ih =>
    intro h
    have ha : a ≠ r := h a (List.mem_cons_self a t)
    have ht : ∀ x ∈ t, x ≠ r := fun x hx => h x (List.mem_cons_of_mem a hx)
    simp only [List.cons_append, listRemove, if_neg ha]
    exact congrArg (fun l => a :: l) (ih ht)

/-- C8: on a catalog satisfying the uniqueness invariant, removing a
present identifier shrinks the collection by exactly one, removes
exactly the record bearing that identifier, and a subsequent
`get_resource` on the identifier returns `none`. -/
theorem remove_present_spec (m : LibraryManager) (id : Str)
    (r0 : LibraryResource) (hu : uniqueIds m.resources)
    (hfind : get_resource m id = some r0) :
    (remove_resource false m id).1.resources.length + 1 = m.resources.length ∧
    (∃ pre post, m.resources = pre ++ r0 :: post ∧ r0.resource_id = id ∧
      (remove_resource false m id).1.resources = pre ++ post) ∧
    get_resource (remove_resource false m id).1 id = none := by
  obtain ⟨hid, pre, post, hsplit, hpre⟩ := find_id_decomp id r0 m.resources hfind
  have hprene : ∀ x ∈ pre, x ≠ r0 := by
    intro x hx hxr
    exact hpre x hx (hxr ▸ hid)
  have hrem : (remove_resource false m id).1.resources = pre ++ post := by
    unfold remove_resource
    rw [hfind, save_resources_fst_resources]
    show listRemove r0 m.resources = pre ++ post
    rw [hsplit]
    exact listRemove_append_not_mem r0 post pre hprene
  have hpostne : ∀ x ∈ post, x.resource_id ≠ id := by
    unfold uniqueIds at hu
    rw [hsplit] at hu
    simp only [List.map_append, List.map_cons] at hu
    have hmid := (List.nodup_middle.mp hu)
    have hnotin := (List.nodup_cons.mp hmid).1
    intro x hx hxid
    apply hnotin
    rw [List.mem_append]
    right
    rw [hid, ← hxid]
    exact List.mem_map_of_mem LibraryResource.resource_id hx
  refine ⟨?_, ⟨pre, post, hsplit, hid, hrem⟩, ?_⟩
  · rw [hrem, hsplit]
    simp only [List.length_append, List.length_cons]
    omega
  · unfold get_resource
    rw [hrem]
    rw [List.find?_eq_none]
    intro x hx
    rcases List.mem_append.mp hx with hx' | hx'
    · simpa using hpre x hx'
    · simpa using hpostne x hx'

/-- Witness for C8: removing `b1` from a unique two-record catalog. -/
theorem remove_present_spec_witness :
    uniqueIds [sampleBook, sampleAudio] ∧
    get_resource ⟨[sampleBook, sampleAudio], []⟩ "b1".data = some sampleBook ∧
    ((remove_resource false ⟨[sampleBook, sampleAudio], []⟩ "b1".data).1.resources.length + 1
        = ([sampleBook, sampleAudio] : List LibraryResource).length ∧
      (∃ pre post, ([sampleBook, sampleAudio] : List LibraryResource)
          = pre ++ sampleBook :: post ∧
        sampleBook.resource_id = "b1".data ∧
        (remove_resource false ⟨[sampleBook, sampleAudio], []⟩ "b1".data).1.resources
          = pre ++ post) ∧
      get_resource (remove_resource false ⟨[sampleBook, sampleAudio], []⟩ "b1".data).1
        "b1".data = none) :=
  ⟨by decide, rfl,
    remove_present_spec ⟨[sampleBook, sampleAudio], []⟩ "b1".data sampleBook
      (by decide) rfl⟩

/-- C10: constructing a catalog from stored data does not enforce the
identifier-uniqueness invariant: loading two records sharing the
identifier `b1` succeeds and both end up in the collection. -/
theorem load_does_not_enforce_uniqueness :
    mkLibraryManager [resource_to_dict sampleBook, resource_to_dict sampleClash]
      = .ok { resources := [sampleBook, sampleClash],
              stored := [resource_to_dict sampleBook, resource_to_dict sampleClash] } ∧
    sampleBook.resource_id = sampleClash.resource_id ∧
    ¬ uniqueIds [sampleBook, sampleClash] :=
  ⟨rfl, rfl, by decide⟩
